import Mathlib

/-!
Verification of the connectshere_server core services against their
specification.  The definitions below are shallow embeddings of the
JavaScript source:

* `src/src/services/consultantService.js` — slot generation, availability,
  booking creation (`timeToMinutes`, `minutesToTime`, `getDayName`,
  `getSettings`, `getAvailableSlots`, `createBooking`,
  `getNextAvailableDates`);
* `src/unnamed/part_001` (firebase service) — the TTL cache
  (`getCached`, `setCache`, `invalidateCache`), conversation persistence
  (`saveConversationExchange`, `getConversationHistory`) and
  `getAISettings`;
* `src/src/services/aiService.js` — `getCachedSettings`;
* `src/src/services/bookingStateManager.js` — the booking dialogue state
  machine.

JavaScript numbers that are used as integers are modelled as `Nat`;
JavaScript `null`/`undefined` values are modelled as `Option`; the
Firestore collections touched by a function are passed in (and returned)
explicitly as lists.  Each asynchronous Firestore call in `createBooking`
is a suspension point; the small-step machine `cbStep` makes those
suspension points explicit so that interleavings of two concurrent calls
can be analysed.
-/

/-- Helper for JS `String.prototype.split` with a one-character separator:
collect the current field (held reversed in `acc`) and the remaining
fields. -/
def splitCharsAux (sep : Char) : List Char → List Char → List String
  | [], acc => [String.mk acc.reverse]
  | c :: cs, acc =>
    if c == sep then String.mk acc.reverse :: splitCharsAux sep cs []
    else splitCharsAux sep cs (c :: acc)

/-- JS `s.split(sep)` for a one-character separator (`":"` and `"-"` are
the only separators the source splits on). -/
def jsSplit (s : String) (sep : Char) : List String :=
  splitCharsAux sep s.data []

/-- JS `Number(s)` restricted to the strings the source feeds it: a string
of decimal digits maps to its value (`Number("") = 0` included, since the
empty string is falsy-numeric in JS); anything else is `NaN`, modelled as
`none`. -/
def jsNumberNat (s : String) : Option Nat :=
  if s.data.all Char.isDigit then
    some (s.data.foldl (fun n c => n * 10 + (c.toNat - 48)) 0)
  else none

/-- JS `timeToMinutes` (consultantService.js): split a `"HH:MM"` string on
`":"` and return `hours * 60 + minutes`.  The source only applies it to
strings accepted by `isValidTime` (or to schedule values normalised by
`normalizeDaySchedule`), so the catch-all branch for unparseable input is
never exercised there. -/
def timeToMinutes (s : String) : Nat :=
  match (jsSplit s ':').map jsNumberNat with
  | some h :: some m :: _ => h * 60 + m
  | _ => 0

/-- JS `String.prototype.padStart(2, "0")` as used by `minutesToTime`. -/
def padTwo (n : Nat) : String :=
  let s := toString n
  if s.length < 2 then "0" ++ s else s

/-- JS `minutesToTime` (consultantService.js): minutes since midnight to a
zero-padded `"HH:MM"` string. -/
def minutesToTime (minutes : Nat) : String :=
  padTwo (minutes / 60) ++ ":" ++ padTwo (minutes % 60)

/-- Calendar date, the `(year, month, day)` components parsed out of a
`"YYYY-MM-DD"` string (months 1–12, days 1–31). -/
structure Ymd where
  y : Nat
  m : Nat
  d : Nat
deriving DecidableEq, Repr

/-- Day of week for a Gregorian calendar date, 0 = Sunday … 6 = Saturday,
computed with Sakamoto's method.  This agrees with JS
`new Date(year, month - 1, day).getDay()` for valid in-range dates, which
is how `getDayName` obtains the weekday. -/
def dayOfWeek (y m d : Nat) : Nat :=
  let t : List Nat := [0, 3, 2, 5, 0, 3, 5, 1, 4, 6, 2, 4]
  let y2 := if m < 3 then y - 1 else y
  (y2 + y2 / 4 - y2 / 100 + y2 / 400 + t.getD (m - 1) 0 + d) % 7

/-- The `days` array inside JS `getDayName`. -/
def dayNames : List String :=
  ["sunday", "monday", "tuesday", "wednesday", "thursday", "friday", "saturday"]

/-- JS date parsing `dateStr.split('-').map(Number)` as used by
`getDayName`, `isDateAvailable` and `getAvailableSlots`.  `none` models the
`NaN` components produced for a malformed string. -/
def parseDate (s : String) : Option Ymd :=
  match (jsSplit s '-').map jsNumberNat with
  | [some y, some mo, some d] => some ⟨y, mo, d⟩
  | _ => none

/-- JS `getDayName` (consultantService.js): manual date parsing followed by
`days[date.getDay()]`.  A malformed date yields `""` here where JS yields
`undefined`; both fail the subsequent schedule lookup the same way. -/
def getDayName (dateStr : String) : String :=
  match parseDate dateStr with
  | some x => dayNames.getD (dayOfWeek x.y x.m x.d) ""
  | none => ""

/-- Strict lexicographic comparison of calendar dates, matching the JS
comparison `targetDate < kolkataToday` of two midnight `Date`s.  A `none`
first argument models an invalid (`NaN`) date, for which every JS
comparison is false. -/
def dateLtB (a : Option Ymd) (b : Ymd) : Bool :=
  match a with
  | some x =>
      decide (x.y < b.y) ||
      (decide (x.y = b.y) && (decide (x.m < b.m) ||
        (decide (x.m = b.m) && decide (x.d < b.d))))
  | none => false

/-- Date equality `targetDate.getTime() === kolkataToday.getTime()`; false
for an invalid (`NaN`) date. -/
def dateEqB (a : Option Ymd) (b : Ymd) : Bool :=
  match a with
  | some x => decide (x = b)
  | none => false

/-- JS `a >= b` on midnight dates as used by `isDateAvailable`; false when
the first date is invalid (`NaN`). -/
def dateGeB (a : Option Ymd) (b : Ymd) : Bool :=
  match a with
  | some x => !(dateLtB (some x) b)
  | none => false

/-- One weekday entry of a consultant schedule:
`{enabled, start, end, breakStart, breakEnd}`.  Times are `"HH:MM"`
strings; `none` models JS `null` (the source keeps `start`/`end` non-null
whenever `enabled` is true). -/
structure DaySchedule where
  enabled : Bool
  start : Option String
  endTime : Option String
  breakStart : Option String
  breakEnd : Option String
deriving DecidableEq, Repr

/-- A weekly schedule: one `DaySchedule` per weekday name. -/
structure Schedule where
  monday : DaySchedule
  tuesday : DaySchedule
  wednesday : DaySchedule
  thursday : DaySchedule
  friday : DaySchedule
  saturday : DaySchedule
  sunday : DaySchedule
deriving DecidableEq, Repr

/-- JS property access `settings.schedule[dayName]`; `none` models the
`undefined` result for a key that is not a weekday name. -/
def Schedule.lookup (s : Schedule) (name : String) : Option DaySchedule :=
  if name = "monday" then some s.monday
  else if name = "tuesday" then some s.tuesday
  else if name = "wednesday" then some s.wednesday
  else if name = "thursday" then some s.thursday
  else if name = "friday" then some s.friday
  else if name = "saturday" then some s.saturday
  else if name = "sunday" then some s.sunday
  else none

/-- `DEFAULT_SCHEDULE` from consultantService.js. -/
def DEFAULT_SCHEDULE : Schedule :=
  { monday := ⟨true, some "09:00", some "17:00", some "12:00", some "13:00"⟩
    tuesday := ⟨true, some "09:00", some "17:00", some "12:00", some "13:00"⟩
    wednesday := ⟨true, some "09:00", some "17:00", some "12:00", some "13:00"⟩
    thursday := ⟨true, some "09:00", some "17:00", some "12:00", some "13:00"⟩
    friday := ⟨true, some "09:00", some "17:00", some "12:00", some "13:00"⟩
    saturday := ⟨false, some "10:00", some "14:00", none, none⟩
    sunday := ⟨false, none, none, none, none⟩ }

/-- Consultant settings document (`users/{id}/settings/consultant_config`). -/
structure ConsultantSettings where
  enabled : Bool
  bookingType : String
  slotDuration : Nat
  maxTokensPerDay : Nat
  dynamicAllocation : Bool
  schedule : Schedule
deriving DecidableEq, Repr

/-- The default settings object returned by JS `getSettings` when no
`consultant_config` document exists. -/
def defaultConsultantSettings : ConsultantSettings :=
  { enabled := false
    bookingType := "hourly"
    slotDuration := 30
    maxTokensPerDay := 30
    dynamicAllocation := false
    schedule := DEFAULT_SCHEDULE }

/-- JS `getSettings` (consultantService.js): return the stored settings
document when it exists, the default settings otherwise.  `stored` is the
snapshot of the Firestore document (`none` = document absent). -/
def getSettings (stored : Option ConsultantSettings) : ConsultantSettings :=
  match stored with
  | some s => s
  | none => defaultConsultantSettings

/-- The slot/break overlap test inside the `getAvailableSlots` loop:
`breakStartMinutes !== null && breakEndMinutes !== null &&
 time < breakEndMinutes && time + slotDuration > breakStartMinutes`. -/
def breakOverlapB (bs be : Option Nat) (time dur : Nat) : Bool :=
  match bs, be with
  | some b1, some b2 => decide (time < b2) && decide (time + dur > b1)
  | _, _ => false

/-- The slot-generation `for` loop of `getAvailableSlots`
(consultantService.js lines 219–227), one recursion step per iteration:
starting at `time`, emit `time` whenever `time + dur <= endM` and the slot
does not overlap the break window, then advance by `dur`.  `fuel` bounds
the recursion; `genSlotsM` supplies `endM + 1`, which is enough for every
positive `dur` (the source guarantees `dur >= 15` via `sanitizeSettings`,
or the `|| 30` fallback). -/
def genSlotsAux (dur endM : Nat) (bs be : Option Nat) : Nat → Nat → List Nat
  | 0, _ => []
  | fuel + 1, time =>
    if time + dur ≤ endM then
      let rest := genSlotsAux dur endM bs be fuel (time + dur)
      if breakOverlapB bs be time dur then rest else time :: rest
    else []

/-- All slot start times (minutes since midnight) generated by the
`getAvailableSlots` loop for a day running `startM`–`endM` with slot
duration `dur` and optional break window `[bs, be)`. -/
def genSlotsM (startM endM dur : Nat) (bs be : Option Nat) : List Nat :=
  genSlotsAux dur endM bs be (endM + 1) startM

/-- A booking document (`users/{id}/bookings/{autoId}`), the fields
consulted by `getAvailableSlots` and `createBooking`. -/
structure Booking where
  phone : String
  name : String
  reason : String
  date : String
  timeSlot : String
  tokenNumber : Nat
  status : String
deriving DecidableEq, Repr

/-- The result object of `getAvailableSlots`.  The failure branches of the
source return `{available, reason, slots}`; the success branches return
`{available, slots, totalSlots, bookedCount}`; absent fields are `none`. -/
structure SlotsResult where
  available : Bool
  reason : Option String
  slots : List String
  totalSlots : Option Nat
  bookedCount : Option Nat
deriving DecidableEq, Repr

/-- The `status in ['pending', 'confirmed']` Firestore filter. -/
def isActiveStatus (status : String) : Bool :=
  status == "pending" || status == "confirmed"

/-- JS `getAvailableSlots` (consultantService.js).  Explicit inputs replace
the ambient I/O of the source: `stored` is the settings snapshot, `today`
and `nowMinutes` are the Kolkata-timezone calendar date and wall-clock
minutes from `getKolkataTime()`, and `bookings` is the tenant's bookings
collection.  Any error path of the source (it only rethrows) is
unreachable for these inputs, so the embedding is total. -/
def getAvailableSlots (stored : Option ConsultantSettings) (today : Ymd)
    (nowMinutes : Nat) (bookings : List Booking) (dateStr : String) :
    SlotsResult :=
  let settings := getSettings stored
  if !settings.enabled then
    ⟨false, some "Consultant booking is not enabled", [], none, none⟩
  else
    let dayName := getDayName dateStr
    match settings.schedule.lookup dayName with
    | none => ⟨false, some ("Not available on " ++ dayName), [], none, none⟩
    | some daySchedule =>
      if !daySchedule.enabled then
        ⟨false, some ("Not available on " ++ dayName), [], none, none⟩
      else
        let targetDate := parseDate dateStr
        if dateLtB targetDate today then
          ⟨false, some "Cannot book for past dates", [], none, none⟩
        else
          let startMinutes := timeToMinutes (daySchedule.start.getD "")
          let endMinutes := timeToMinutes (daySchedule.endTime.getD "")
          let breakStartMinutes := daySchedule.breakStart.map timeToMinutes
          let breakEndMinutes := daySchedule.breakEnd.map timeToMinutes
          let slotDuration :=
            if settings.slotDuration = 0 then 30 else settings.slotDuration
          let allSlots :=
            (genSlotsM startMinutes endMinutes slotDuration
              breakStartMinutes breakEndMinutes).map minutesToTime
          let bookedSlots :=
            ((bookings.filter (fun b =>
                b.date == dateStr && isActiveStatus b.status &&
                  b.timeSlot != "")).map (fun b => b.timeSlot)).dedup
          let availableSlots :=
            allSlots.filter (fun slot => !(bookedSlots.contains slot))
          if dateEqB targetDate today then
            let filteredSlots :=
              availableSlots.filter
                (fun slot => decide (timeToMinutes slot > nowMinutes + 30))
            ⟨decide (filteredSlots.length > 0), none, filteredSlots,
              some allSlots.length, some bookedSlots.length⟩
          else
            ⟨decide (availableSlots.length > 0), none, availableSlots,
              some allSlots.length, some bookedSlots.length⟩

/-- JS `value || fallback` on a nullable string (`null`, `undefined` and
`""` are falsy). -/
def jsOrStr (o : Option String) (fallback : String) : String :=
  match o with
  | some s => if s = "" then fallback else s
  | none => fallback

/-- The result object of `createBooking`.  `bookingId` models the
Firestore auto-id of `addDoc` as the index of the inserted document. -/
structure BookingResult where
  success : Bool
  bookingId : Option Nat
  tokenNumber : Option Nat
  message : Option String
  error : Option String
deriving DecidableEq, Repr

/-- The narrow existence filter of `createBooking`:
`date == d AND timeSlot == t AND status in ['pending', 'confirmed']`. -/
def conflictPred (date timeSlot : String) (b : Booking) : Bool :=
  b.date == date && b.timeSlot == timeSlot && isActiveStatus b.status

/-- The typed failure returned when the first (availability) check of
`createBooking` fails. -/
def unavailableResult : BookingResult :=
  ⟨false, none, none, none,
    some "This time slot is no longer available. Please choose another."⟩

/-- The typed failure returned when the second (narrow existence) check of
`createBooking` finds a conflicting booking. -/
def justBookedResult : BookingResult :=
  ⟨false, none, none, none,
    some "This slot was just booked. Please select another time."⟩

/-- The success result of `createBooking` for token number `tok` and
inserted document id `id`. -/
def bookedResult (tok id : Nat) : BookingResult :=
  ⟨true, some id, some tok,
    some ("Booking request submitted! Your token number is " ++ toString tok
      ++ ". Staff will confirm and you\x27ll receive notification."), none⟩

/-- The booking document inserted by `createBooking` (`status: 'pending'`,
`name || 'Unknown'`, `reason || 'Not specified'`). -/
def newBooking (phone : String) (name reason : Option String)
    (date timeSlot : String) (tok : Nat) : Booking :=
  ⟨phone, jsOrStr name "Unknown", jsOrStr reason "Not specified",
    date, timeSlot, tok, "pending"⟩

/-- JS `createBooking` (consultantService.js) run without interference
between its awaits: re-check availability, run the narrow existence query,
count the day's bookings for the token number, insert.  Returns the result
object together with the updated bookings collection. -/
def createBooking (stored : Option ConsultantSettings) (today : Ymd)
    (nowMinutes : Nat) (bookings : List Booking) (phone : String)
    (name reason : Option String) (date timeSlot : String) :
    BookingResult × List Booking :=
  let slotsResult := getAvailableSlots stored today nowMinutes bookings date
  if !slotsResult.available || !(slotsResult.slots.contains timeSlot) then
    (unavailableResult, bookings)
  else
    let existing := bookings.filter (conflictPred date timeSlot)
    if !existing.isEmpty then
      (justBookedResult, bookings)
    else
      let dayBookings := bookings.filter (fun b => b.date == date)
      let tokenNumber := dayBookings.length + 1
      let booking := newBooking phone name reason date timeSlot tokenNumber
      (bookedResult tokenNumber bookings.length, bookings ++ [booking])

/-- Control point of an in-flight `createBooking` call.  Each constructor
names the next awaited Firestore operation; `done` carries the returned
result.  The token-count query and the `addDoc` insert are taken as one
step (their separation only affects the token number, not success). -/
inductive CBPhase where
  | availCheck : CBPhase
  | existCheck : CBPhase
  | insert : CBPhase
  | done : BookingResult → CBPhase
deriving DecidableEq, Repr

/-- An in-flight `createBooking` call: its control point plus its
arguments and environment. -/
structure CBProc where
  phase : CBPhase
  stored : Option ConsultantSettings
  today : Ymd
  nowMinutes : Nat
  phone : String
  name : Option String
  reason : Option String
  date : String
  timeSlot : String
deriving DecidableEq, Repr

/-- One step of an in-flight `createBooking` call against the current
bookings collection: exactly the code between two awaits of the source.
A finished call never touches the store again. -/
def cbStep (p : CBProc) (store : List Booking) : CBProc × List Booking :=
  match p.phase with
  | CBPhase.availCheck =>
    let slotsResult :=
      getAvailableSlots p.stored p.today p.nowMinutes store p.date
    if !slotsResult.available || !(slotsResult.slots.contains p.timeSlot) then
      ({ p with phase := CBPhase.done unavailableResult }, store)
    else
      ({ p with phase := CBPhase.existCheck }, store)
  | CBPhase.existCheck =>
    let existing := store.filter (conflictPred p.date p.timeSlot)
    if !existing.isEmpty then
      ({ p with phase := CBPhase.done justBookedResult }, store)
    else
      ({ p with phase := CBPhase.insert }, store)
  | CBPhase.insert =>
    let dayBookings := store.filter (fun b => b.date == p.date)
    let tokenNumber := dayBookings.length + 1
    let booking :=
      newBooking p.phone p.name p.reason p.date p.timeSlot tokenNumber
    ({ p with phase := CBPhase.done (bookedResult tokenNumber store.length) },
      store ++ [booking])
  | CBPhase.done _ => (p, store)

/-- Interleaved execution of two concurrent `createBooking` calls: each
list entry schedules one step of call `A` (`true`) or call `B` (`false`). -/
def runTwo : List Bool → CBProc → CBProc → List Booking →
    CBProc × CBProc × List Booking
  | [], pA, pB, store => (pA, pB, store)
  | b :: rest, pA, pB, store =>
    if b then
      let s := cbStep pA store
      runTwo rest s.1 pB s.2
    else
      let s := cbStep pB store
      runTwo rest pA s.1 s.2

/-- The result of a finished in-flight call, `none` while still running. -/
def procResult (p : CBProc) : Option BookingResult :=
  match p.phase with
  | CBPhase.done r => some r
  | _ => none

/-- Whether a finished call reported success. -/
def resSuccess (o : Option BookingResult) : Bool :=
  match o with
  | some r => r.success
  | none => false

/-- Whether a finished call reported a typed failure with an error
message. -/
def resError (o : Option BookingResult) : Bool :=
  match o with
  | some r => r.error.isSome
  | none => false

/-- Index of the `n`-th (0-based) occurrence of `target` in a schedule,
counting from position `i`. -/
def nthPosAux : List Bool → Bool → Nat → Nat → Option Nat
  | [], _, _, _ => none
  | b :: rest, target, n, i =>
    if b == target then
      if n = 0 then some i else nthPosAux rest target (n - 1) (i + 1)
    else nthPosAux rest target n (i + 1)

/-- Index of the `n`-th (0-based) occurrence of `target` in a schedule. -/
def nthPos (sched : List Bool) (target : Bool) (n : Nat) : Option Nat :=
  nthPosAux sched target n 0

/-- The residual-race interleavings: both calls run their narrow existence
check (their second step) before either call runs its insert (its third
step). -/
def bothChecksBeforeInserts (sched : List Bool) : Bool :=
  match nthPos sched true 1, nthPos sched true 2,
      nthPos sched false 1, nthPos sched false 2 with
  | some ae, some ai, some be, some bi =>
    decide (ae < bi) && decide (be < ai)
  | _, _, _, _ => false

/-- JS `isDateAvailable` (consultantService.js): booking enabled, weekday
enabled, and the date not strictly before today. -/
def isDateAvailable (stored : Option ConsultantSettings) (today : Ymd)
    (dateStr : String) : Bool :=
  let settings := getSettings stored
  if !settings.enabled then false
  else
    match settings.schedule.lookup (getDayName dateStr) with
    | none => false
    | some daySchedule =>
      if !daySchedule.enabled then false
      else dateGeB (parseDate dateStr) today

/-- One entry of the `getNextAvailableDates` result. -/
structure DateInfo where
  date : String
  dayName : String
  availableSlots : Nat
deriving DecidableEq, Repr

/-- The `for` loop of `getNextAvailableDates`, one recursion step per
iteration; `fuel` starts at 14, matching the bound `i < 14`.  `dateStrs i`
is the string `checkDate.toISOString().split('T')[0]` for offset `i` days
from today — it is passed in because `toISOString` renders through the
server's clock and timezone, which are environment inputs. -/
def gnadLoop (stored : Option ConsultantSettings) (today : Ymd)
    (nowMinutes : Nat) (bookings : List Booking) (dateStrs : Nat → String)
    (count : Nat) : Nat → Nat → List DateInfo → List DateInfo
  | 0, _, acc => acc
  | fuel + 1, i, acc =>
    if i < 14 ∧ acc.length < count then
      let dateStr := dateStrs i
      let acc2 :=
        if isDateAvailable stored today dateStr then
          let slots := getAvailableSlots stored today nowMinutes bookings dateStr
          if slots.available && decide (slots.slots.length > 0) then
            acc ++ [⟨dateStr, getDayName dateStr, slots.slots.length⟩]
          else acc
        else acc
      gnadLoop stored today nowMinutes bookings dateStrs count fuel (i + 1) acc2
    else acc

/-- JS `getNextAvailableDates` (consultantService.js): scan up to 14 days
ahead, collecting dates that have at least one available slot, until
`count` dates are found. -/
def getNextAvailableDates (stored : Option ConsultantSettings) (today : Ymd)
    (nowMinutes : Nat) (bookings : List Booking) (dateStrs : Nat → String)
    (count : Nat) : List DateInfo :=
  let settings := getSettings stored
  if !settings.enabled then []
  else gnadLoop stored today nowMinutes bookings dateStrs count 14 0 []

/-- One embedded conversation message `{role, content, timestamp}`. -/
structure Msg where
  role : String
  content : String
  timestamp : String
deriving DecidableEq, Repr

/-- A conversation document (`users/{id}/conversations/{key}`), the fields
written by `saveConversationExchange`. -/
structure Conversation where
  conversationId : String
  channel : String
  participantKey : String
  messages : List Msg
  messageCount : Nat
deriving DecidableEq, Repr

/-- JS `normalizeConversationId` (firebase service): trim, default to
`"default"` when empty, replace every character outside
`[a-zA-Z0-9_-]` with `"_"`.  The argument is the raw nullable
`conversationId` (`String(conversationId || '')`). -/
def normalizeConversationId (conversationId : Option String) : String :=
  let clean := (conversationId.getD "").trim
  if clean = "" then "default"
  else clean.map (fun c =>
    if c.isAlphanum || c = '_' || c = '-' then c else '_')

/-- `MAX_MESSAGES_PER_CONVERSATION` (firebase service). -/
def MAX_MESSAGES_PER_CONVERSATION : Nat := 100

/-- JS `array.slice(-n)`: the last `n` elements for `n > 0`, the whole
array for `n = 0` (since `slice(-0)` is `slice(0)`). -/
def jsSliceNeg (l : List Msg) (n : Nat) : List Msg :=
  if n = 0 then l else l.drop (l.length - n)

/-- JS `saveConversationExchange` (firebase service), the document-level
effect: read the existing conversation (`conv`, `none` when absent),
append the `{user, model}` pair sharing one ISO timestamp `timestamp`,
trim to the last 100 messages when over the cap, and write the document
back (with `messageCount = messages.length`).  The `updateUserStats`
counter bump and the cache invalidation are side effects on other state
and are modelled by `saveExchangeAndInvalidate` below. -/
def saveConversationExchange (conv : Option Conversation)
    (userMessage modelResponse : String) (conversationId : Option String)
    (timestamp : String) : Conversation :=
  let safeConversationId := normalizeConversationId conversationId
  let messages :=
    match conv with
    | some c => c.messages
    | none => []
  let messages := messages ++
    [⟨"user", userMessage, timestamp⟩, ⟨"model", modelResponse, timestamp⟩]
  let messages :=
    if messages.length > MAX_MESSAGES_PER_CONVERSATION then
      jsSliceNeg messages MAX_MESSAGES_PER_CONVERSATION
    else messages
  { conversationId := safeConversationId
    channel := if safeConversationId.startsWith "wa_" then "whatsapp" else "app"
    participantKey := safeConversationId
    messages := messages
    messageCount := messages.length }

/-- A sequence of `saveConversationExchange` calls on one conversation:
each entry is `(userMessage, modelResponse, timestamp)`, applied oldest
first, starting from `conv`. -/
def applyExchanges (conversationId : Option String)
    (xs : List (String × String × String)) (conv : Option Conversation) :
    Option Conversation :=
  xs.foldl
    (fun acc x =>
      some (saveConversationExchange acc x.1 x.2.1 conversationId x.2.2))
    conv

/-- The embedded messages of a possibly-absent conversation document. -/
def convMessages (conv : Option Conversation) : List Msg :=
  match conv with
  | some c => c.messages
  | none => []

/-- One cache entry `{data, timestamp}` of the in-memory cache (firebase
service).  `data = none` models an explicitly cached JS `null`. -/
structure CacheEntry (α : Type) where
  data : Option α
  timestamp : Nat
deriving DecidableEq, Repr

/-- `Map.prototype.get` on the cache: first binding for the key. -/
def cacheGet {α : Type} : List (String × CacheEntry α) → String →
    Option (CacheEntry α)
  | [], _ => none
  | (k, e) :: rest, key => if k = key then some e else cacheGet rest key

/-- `Map.prototype.set` on the cache.  A new binding is consed on and
shadows any old one; `cacheGet` and `invalidateCache` cannot observe the
difference from in-place replacement. -/
def setCache {α : Type} (cache : List (String × CacheEntry α)) (key : String)
    (v : Option α) (now : Nat) : List (String × CacheEntry α) :=
  (key, ⟨v, now⟩) :: cache

/-- JS `getCached(key, ttl)` (firebase service): the entry's `data` when
the entry exists and is fresh (`now - timestamp < ttl`), JS `null`
(`none`) otherwise.  Note the return value conflates a miss with a fresh
entry whose stored `data` is itself `null`. -/
def getCached {α : Type} (cache : List (String × CacheEntry α)) (now : Nat)
    (key : String) (ttl : Nat) : Option α :=
  match cacheGet cache key with
  | some entry => if now - entry.timestamp < ttl then entry.data else none
  | none => none

/-- Character-list helper for JS `String.prototype.includes`: does the
list begin with the pattern? -/
def startsWithChars : List Char → List Char → Bool
  | _, [] => true
  | [], _ :: _ => false
  | c :: cs, p :: ps => c == p && startsWithChars cs ps

/-- Character-list helper for JS `String.prototype.includes`: does the
pattern occur anywhere in the list? -/
def includesChars : List Char → List Char → Bool
  | [], pat => pat.isEmpty
  | c :: cs, pat => startsWithChars (c :: cs) pat || includesChars cs pat

/-- JS `key.includes(pattern)`. -/
def strIncludes (s pat : String) : Bool :=
  includesChars s.toList pat.toList

/-- JS `invalidateCache(pattern)` (firebase service): delete every entry
whose key contains the pattern as a substring. -/
def invalidateCache {α : Type} (cache : List (String × CacheEntry α))
    (pattern : String) : List (String × CacheEntry α) :=
  cache.filter (fun kv => !(strIncludes kv.1 pattern))

/-- One history entry `{role, parts: [{text}]}` returned by
`getConversationHistory`. -/
structure HistEntry where
  role : String
  text : String
deriving DecidableEq, Repr

/-- The conversation-history cache namespace
(`CACHE_TTL.conversationHistory = 30000`). -/
def conversationHistoryTTL : Nat := 30000

/-- The result of `getConversationHistory` together with the cache and the
per-process `legacyMigrationChecked` marker it may have updated. -/
structure HistoryResult where
  history : List HistEntry
  cache : List (String × CacheEntry (List HistEntry))
  legacyChecked : Bool
deriving Repr

/-- Formatting of a stored message for the model:
`{role: msg.role, parts: [{text: msg.content}]}`. -/
def toHistEntry (m : Msg) : HistEntry := ⟨m.role, m.content⟩

/-- A Firestore query `orderBy(ts, 'desc'), limit(n)` over a legacy
message collection held in chronological order, followed by the source's
`push`-then-`reverse`: net effect, the last `n` messages in chronological
order. -/
def legacyQueryChron (l : List Msg) (n : Nat) : List Msg :=
  l.drop (l.length - n)

/-- The two legacy fallbacks of `getConversationHistory` (firebase
service): first the per-conversation `messages` subcollection, then — at
most once per process per tenant (`legacyChecked` marker) — the flat
legacy collection.  `legacySub` and `legacyFlat` are those collections in
chronological order. -/
def getConversationHistoryLegacy
    (cache : List (String × CacheEntry (List HistEntry))) (now : Nat)
    (legacyChecked : Bool) (legacySub legacyFlat : List Msg)
    (cacheKey : String) (messageLimit : Nat) : HistoryResult :=
  let subChron := legacyQueryChron legacySub messageLimit
  if !subChron.isEmpty then
    let result := subChron.map toHistEntry
    ⟨result, setCache cache cacheKey (some result) now, legacyChecked⟩
  else if legacyChecked then
    ⟨[], cache, legacyChecked⟩
  else
    let result := (legacyQueryChron legacyFlat messageLimit).map toHistEntry
    if result.length > 0 then
      ⟨result, setCache cache cacheKey (some result) now, true⟩
    else
      ⟨result, cache, true⟩

/-- JS `getConversationHistory` (firebase service): cache lookup, then the
embedded-array read (last `messageLimit` messages via `slice(-limit)`),
then the legacy fallbacks.  `conv` is the conversation document snapshot.
Non-empty results are cached under
`history:{userId}:{conversationId || 'default'}:{messageLimit}`. -/
def getConversationHistory
    (cache : List (String × CacheEntry (List HistEntry))) (now : Nat)
    (legacyChecked : Bool) (conv : Option Conversation)
    (legacySub legacyFlat : List Msg) (userId : String) (messageLimit : Nat)
    (conversationId : Option String) : HistoryResult :=
  let cacheKey := "history:" ++ userId ++ ":" ++
    jsOrStr conversationId "default" ++ ":" ++ toString messageLimit
  match getCached cache now cacheKey conversationHistoryTTL with
  | some cached => ⟨cached, cache, legacyChecked⟩
  | none =>
    match conv with
    | some c =>
      let recentMessages := jsSliceNeg c.messages messageLimit
      let history := recentMessages.map toHistEntry
      if history.length > 0 then
        ⟨history, setCache cache cacheKey (some history) now, legacyChecked⟩
      else
        getConversationHistoryLegacy cache now legacyChecked legacySub
          legacyFlat cacheKey messageLimit
    | none =>
      getConversationHistoryLegacy cache now legacyChecked legacySub
        legacyFlat cacheKey messageLimit

/-- `saveConversationExchange` together with its cache side effect: after
the document write, the entry
`history:{userId}:{safeConversationId}` pattern is invalidated. -/
def saveExchangeAndInvalidate
    (cache : List (String × CacheEntry (List HistEntry)))
    (conv : Option Conversation) (userId userMessage modelResponse : String)
    (conversationId : Option String) (timestamp : String) :
    Conversation × List (String × CacheEntry (List HistEntry)) :=
  let conv2 :=
    saveConversationExchange conv userMessage modelResponse conversationId
      timestamp
  (conv2, invalidateCache cache
    ("history:" ++ userId ++ ":" ++ normalizeConversationId conversationId))

/-- JS `getAISettings` (firebase service): check the shared cache under
`aiSettings:{userId}` with the 120 s TTL and return on `cached !== null`;
otherwise fetch.  `fetched` stands for the Firestore read (the
`ai_config` document merged with its files; `none` = document absent, in
which case the source caches `null`).  Returns
`(result, fetcherRan, cache)`. -/
def getAISettings {α : Type} (cache : List (String × CacheEntry α))
    (now : Nat) (userId : String) (fetched : Option α) :
    Option α × Bool × List (String × CacheEntry α) :=
  let cacheKey := "aiSettings:" ++ userId
  match getCached cache now cacheKey 120000 with
  | some v => (some v, false, cache)
  | none =>
    match fetched with
    | none => (none, true, setCache cache cacheKey none now)
    | some cfg => (some cfg, true, setCache cache cacheKey (some cfg) now)

/-- JS `getCachedSettings` (aiService.js): its own `settingsCache` map
keyed by `{userId}:{cacheKey}` with a 60 s TTL.  The freshness test is on
the entry object (`cached && now - cached.timestamp < CACHE_TTL_MS`),
so a fresh entry is returned even when its `data` is `null`.  `fetched`
stands for the result of `await fetcher()`.  Returns
`(result, fetcherRan, cache)`. -/
def getCachedSettings {α : Type} (cache : List (String × CacheEntry α))
    (now : Nat) (userId cacheKey : String) (fetched : Option α) :
    Option α × Bool × List (String × CacheEntry α) :=
  let fullKey := userId ++ ":" ++ cacheKey
  match cacheGet cache fullKey with
  | some cached =>
    if now - cached.timestamp < 60000 then (cached.data, false, cache)
    else (fetched, true, setCache cache fullKey fetched now)
  | none => (fetched, true, setCache cache fullKey fetched now)

/-- One booking dialogue state (bookingStateManager.js).  `step` is one of
the `BOOKING_STEPS` strings; the remaining fields model the JS object's
properties, `none` for absent/`null`. -/
structure BookingState where
  step : String
  reason : Option String
  date : Option String
  timeSlot : Option String
  name : Option String
  startedAt : Option Nat
  updatedAt : Option Nat
deriving DecidableEq, Repr

/-- The default state `{step: BOOKING_STEPS.IDLE}` returned by `getState`
for an unknown key (all other properties absent). -/
def idleState : BookingState :=
  ⟨"idle", none, none, none, none, none, none⟩

/-- The in-memory `bookingStates` map, keyed by phone. -/
def StateMap : Type := List (String × BookingState)

/-- `Map.prototype.get` on `bookingStates`. -/
def stateMapGet : List (String × BookingState) → String → Option BookingState
  | [], _ => none
  | (k, v) :: rest, key => if k = key then some v else stateMapGet rest key

/-- JS `getState(phone)`: the stored state, or `{step: IDLE}`. -/
def getState (m : List (String × BookingState)) (phone : String) :
    BookingState :=
  (stateMapGet m phone).getD idleState

/-- JS `setState(phone, state)`: `bookingStates.set(phone,
{...getState(phone), ...state, updatedAt: Date.now()})`.  The update
function `upd` stands for the spread of the partial literal `state` over
the current state; the new binding shadows the old one. -/
def setState (m : List (String × BookingState)) (phone : String)
    (upd : BookingState → BookingState) (now : Nat) :
    List (String × BookingState) :=
  (phone, { upd (getState m phone) with updatedAt := some now }) :: m

/-- JS `clearState(phone)`: `bookingStates.delete(phone)`. -/
def clearState (m : List (String × BookingState)) (phone : String) :
    List (String × BookingState) :=
  m.filter (fun kv => !(kv.1 == phone))

/-- JS truthiness of a nullable string (only `null`/`undefined` and `""`
are falsy). -/
def jsTruthy (o : Option String) : Bool :=
  match o with
  | some s => !(s == "")
  | none => false

/-- JS `startBooking(phone, reason, name)`: start at `AWAITING_DATE` when
`reason` is truthy (with or without a name), else at `AWAITING_REASON`;
store the pre-extracted fields and reset `date`/`timeSlot`. -/
def startBooking (m : List (String × BookingState)) (phone : String)
    (reason name : Option String) (now : Nat) :
    List (String × BookingState) :=
  let startStep :=
    if jsTruthy reason && jsTruthy name then "awaiting_date"
    else if jsTruthy reason then "awaiting_date"
    else "awaiting_reason"
  setState m phone
    (fun st => { st with
      step := startStep, reason := reason, date := none, timeSlot := none,
      name := name, startedAt := some now }) now

/-- JS `setDate(phone, date)`: merge in the date, move to
`AWAITING_SLOT`. -/
def setDate (m : List (String × BookingState)) (phone date : String)
    (now : Nat) : List (String × BookingState) :=
  setState m phone
    (fun st => { st with step := "awaiting_slot", date := some date }) now

/-- JS `setTimeSlot(phone, timeSlot)`: merge in the slot, move to
`AWAITING_NAME`. -/
def setTimeSlot (m : List (String × BookingState)) (phone timeSlot : String)
    (now : Nat) : List (String × BookingState) :=
  setState m phone
    (fun st => { st with step := "awaiting_name", timeSlot := some timeSlot })
    now

/-- JS `setName(phone, name)`: merge in the name, move to
`AWAITING_CONFIRM`. -/
def setName (m : List (String × BookingState)) (phone name : String)
    (now : Nat) : List (String × BookingState) :=
  setState m phone
    (fun st => { st with step := "awaiting_confirm", name := some name }) now

/-- A concrete settings document used in the witness scenarios: booking
enabled, the default weekly schedule, 60-minute slots. -/
def testSettings : ConsultantSettings :=
  { defaultConsultantSettings with enabled := true, slotDuration := 60 }

/-- A concrete in-flight `createBooking` call used in the race scenarios:
tenant with `testSettings`, run on Sunday 2026-10-11 requesting the
Monday 2026-10-12 slot `"09:00"`. -/
def raceA : CBProc :=
  ⟨CBPhase.availCheck, some testSettings, ⟨2026, 10, 11⟩, 600, "alice",
    some "Alice", some "demo", "2026-10-12", "09:00"⟩

/-- The second concurrent `createBooking` call of the race scenarios: the
same tenant, date and time slot as `raceA`, a different counterparty. -/
def raceB : CBProc := { raceA with phone := "bob" }

theorem genSlotsAux_mem (dur endM : Nat) (bs be : Option Nat) :
    ∀ (fuel time slot : Nat), slot ∈ genSlotsAux dur endM bs be fuel time →
      slot + dur ≤ endM ∧ breakOverlapB bs be slot dur = false := by
  intro fuel
  induction fuel with
  | zero => intro time slot h; simp [genSlotsAux] at h
  | succ n ih =>
    intro time slot h
    simp only [genSlotsAux] at h
    by_cases hc : time + dur ≤ endM
    · rw [if_pos hc] at h
      by_cases hb : breakOverlapB bs be time dur = true
      · rw [if_pos hb] at h
        exact ih _ _ h
      · rw [if_neg hb] at h
        rcases List.mem_cons.mp h with rfl | h2
        · exact ⟨hc, Bool.eq_false_iff.mpr hb⟩
        · exact ih _ _ h2
    · rw [if_neg hc] at h
      simp at h

/-- Claim C1: every slot emitted by the slot-generation step of
`getAvailableSlots` (the loop embedded as `genSlotsM`) fits before the end
of the day (`slot + duration <= end`), and, when both break bounds are
present, its interval `[slot, slot + duration)` does not overlap the break
window `[breakStart, breakEnd)`. -/
theorem slotGeneration_fits_and_avoids_break (startM endM dur : Nat)
    (bs be : Option Nat) (slot : Nat)
    (h : slot ∈ genSlotsM startM endM dur bs be) :
    slot + dur ≤ endM ∧
      ∀ b1 b2, bs = some b1 → be = some b2 →
        ¬(slot < b2 ∧ b1 < slot + dur) := by
  obtain ⟨h1, h2⟩ := genSlotsAux_mem dur endM bs be _ _ _ h
  refine ⟨h1, ?_⟩
  rintro b1 b2 rfl rfl ⟨hlt, hgt⟩
  simp [breakOverlapB, hlt, hgt] at h2

/-- Witness for C1: the Monday schedule's first slot (09:00, i.e. minute
540, duration 60, break 12:00–13:00) is generated, fits before 17:00 and
avoids the break window. -/
theorem slotGeneration_fits_and_avoids_break_witness :
    540 ∈ genSlotsM 540 1020 60 (some 720) (some 780) ∧
      540 + 60 ≤ 1020 ∧ ¬(540 < 780 ∧ 720 < 540 + 60) := by
  have h := slotGeneration_fits_and_avoids_break 540 1020 60 (some 720)
    (some 780) 540 (by decide)
  exact ⟨by decide, h.1, h.2 720 780 rfl rfl⟩

/-- Claim C2: for Monday 09:00–17:00 with break 12:00–13:00 and
60-minute slots, slot generation yields exactly
09:00, 10:00, 11:00, 13:00, 14:00, 15:00, 16:00 — 12:00 is excluded by the
break, 16:00 is included since it ends exactly at 17:00, and no 17:00 slot
is emitted.  The second conjunct runs the full `getAvailableSlots` on that
schedule (booking a Monday from the previous day, no existing bookings). -/
theorem mondaySlotsExample :
    (genSlotsM (timeToMinutes "09:00") (timeToMinutes "17:00") 60
        (some (timeToMinutes "12:00")) (some (timeToMinutes "13:00"))).map
        minutesToTime =
      ["09:00", "10:00", "11:00", "13:00", "14:00", "15:00", "16:00"] ∧
    getAvailableSlots (some testSettings) ⟨2026, 10, 11⟩ 600 [] "2026-10-12" =
      ⟨true, none, ["09:00", "10:00", "11:00", "13:00", "14:00", "15:00",
        "16:00"], some 7, some 0⟩ := by
  exact ⟨by decide, by decide⟩

/-- Claim C10: a tenant that never stored a consultant configuration gets
the default settings with `enabled = false`, so `getAvailableSlots`
returns `{available: false, slots: []}` (with the disabled reason) and
`getNextAvailableDates` returns `[]`, regardless of the date asked for,
the clock, and any existing bookings. -/
theorem unconfiguredTenant_disabled :
    getSettings none = defaultConsultantSettings ∧
    defaultConsultantSettings.enabled = false ∧
    (∀ (today : Ymd) (nowMinutes : Nat) (bookings : List Booking)
        (dateStr : String),
      getAvailableSlots none today nowMinutes bookings dateStr =
        ⟨false, some "Consultant booking is not enabled", [], none, none⟩) ∧
    (∀ (today : Ymd) (nowMinutes : Nat) (bookings : List Booking)
        (dateStrs : Nat → String) (count : Nat),
      getNextAvailableDates none today nowMinutes bookings dateStrs count
        = []) := by
  refine ⟨rfl, rfl, ?_, ?_⟩ <;> intros <;> rfl

theorem cbStep_seq_eq_createBooking (stored : Option ConsultantSettings)
    (today : Ymd) (nowMinutes : Nat) (store : List Booking) (phone : String)
    (name reason : Option String) (date timeSlot : String) :
    (let p0 : CBProc := ⟨CBPhase.availCheck, stored, today, nowMinutes,
        phone, name, reason, date, timeSlot⟩
     let s1 := cbStep p0 store
     let s2 := cbStep s1.1 s1.2
     let s3 := cbStep s2.1 s2.2
     (procResult s3.1, s3.2)) =
    (some (createBooking stored today nowMinutes store phone name reason
        date timeSlot).1,
      (createBooking stored today nowMinutes store phone name reason
        date timeSlot).2) := by
  simp only [createBooking, cbStep]
  split_ifs with h1 h2 <;> simp [procResult]

/-- Claim C4: whenever `createBooking` (run without interference) reports
success, the returned token number is the count of all existing bookings
with the same date — regardless of their status — plus one, and the
document appended to the bookings collection is exactly the new booking
with that token number and status `'pending'`. -/
theorem createBooking_token_and_pending (stored : Option ConsultantSettings)
    (today : Ymd) (nowMinutes : Nat) (bookings : List Booking)
    (phone : String) (name reason : Option String) (date timeSlot : String)
    (r : BookingResult) (bs2 : List Booking)
    (heq : createBooking stored today nowMinutes bookings phone name reason
      date timeSlot = (r, bs2))
    (hs : r.success = true) :
    r.tokenNumber =
      some ((bookings.filter (fun b => b.date == date)).length + 1) ∧
    bs2 = bookings ++ [newBooking phone name reason date timeSlot
      ((bookings.filter (fun b => b.date == date)).length + 1)] ∧
    (newBooking phone name reason date timeSlot
      ((bookings.filter (fun b => b.date == date)).length + 1)).status =
      "pending" := by
  simp only [createBooking] at heq
  split at heq
  · injection heq with h1 h2
    subst h1
    simp [unavailableResult] at hs
  · split at heq
    · injection heq with h1 h2
      subst h1
      simp [justBookedResult] at hs
    · injection heq with h1 h2
      subst h1
      subst h2
      exact ⟨rfl, rfl, rfl⟩

/-- Witness for C4: a successful booking for Monday 2026-10-12 at 09:00
while one booking (a rejected one, at 10:00) already exists for that
date: the token number counts it, giving 2, and the appended document is
pending. -/
theorem createBooking_token_and_pending_witness :
    (createBooking (some testSettings) ⟨2026, 10, 11⟩ 600
        [⟨"p0", "N", "R", "2026-10-12", "10:00", 1, "rejected"⟩] "p1"
        (some "Alice") (some "demo") "2026-10-12" "09:00").1.tokenNumber =
      some (([⟨"p0", "N", "R", "2026-10-12", "10:00", 1,
        "rejected"⟩] : List Booking).filter
          (fun b => b.date == "2026-10-12")).length.succ ∧
    ([⟨"p0", "N", "R", "2026-10-12", "10:00", 1, "rejected"⟩] :
        List Booking).filter (fun b => b.date == "2026-10-12") =
      [⟨"p0", "N", "R", "2026-10-12", "10:00", 1, "rejected"⟩] := by
  have h := createBooking_token_and_pending (some testSettings)
    ⟨2026, 10, 11⟩ 600
    [⟨"p0", "N", "R", "2026-10-12", "10:00", 1, "rejected"⟩] "p1"
    (some "Alice") (some "demo") "2026-10-12" "09:00" _ _ rfl (by decide)
  exact ⟨h.1, by decide⟩

/-- Claim C3: when an in-flight `createBooking` call reaches its second,
narrower existence check (the `existCheck` suspension point) and the
bookings collection then contains a conflicting row — same date, same
time slot, status pending or confirmed — the call finishes with the typed
failure `{success: false, error: "This slot was just booked. …"}` (a
returned value, not a thrown exception: the embedding is total on this
path), the collection is left unchanged, and a finished call never
modifies the collection afterwards. -/
theorem existCheck_conflict_fails_without_insert (p q : CBProc)
    (store st : List Booking) (r : BookingResult)
    (hp : p.phase = CBPhase.existCheck)
    (hc : (store.filter (conflictPred p.date p.timeSlot)).isEmpty = false)
    (hq : q.phase = CBPhase.done r) :
    cbStep p store =
      ({ p with phase := CBPhase.done justBookedResult }, store) ∧
    justBookedResult.success = false ∧
    justBookedResult.error =
      some "This slot was just booked. Please select another time." ∧
    cbStep q st = (q, st) := by
  refine ⟨?_, rfl, rfl, ?_⟩
  · simp [cbStep, hp, hc]
  · simp only [cbStep, hq]

/-- Witness for C3: a call at its existence check for 2026-10-12 09:00
while a pending booking for that slot sits in the collection fails with
the conflict result and leaves the collection unchanged. -/
theorem existCheck_conflict_fails_without_insert_witness :
    cbStep { raceA with phase := CBPhase.existCheck }
        [⟨"bob", "Bob", "x", "2026-10-12", "09:00", 1, "pending"⟩] =
      ({ raceA with phase := CBPhase.done justBookedResult },
        [⟨"bob", "Bob", "x", "2026-10-12", "09:00", 1, "pending"⟩]) ∧
    justBookedResult.success = false ∧
    justBookedResult.error =
      some "This slot was just booked. Please select another time." ∧
    cbStep { raceA with phase := CBPhase.done justBookedResult } [] =
      ({ raceA with phase := CBPhase.done justBookedResult }, []) := by
  exact existCheck_conflict_fails_without_insert
    { raceA with phase := CBPhase.existCheck }
    { raceA with phase := CBPhase.done justBookedResult }
    [⟨"bob", "Bob", "x", "2026-10-12", "09:00", 1, "pending"⟩] []
    justBookedResult rfl (by decide) rfl

/-- Counterexample to C7 as stated: under the fully interleaved schedule
(availability checks, then both existence checks, then both inserts) the
two concurrent `createBooking` calls for the same (tenant, date, slot)
BOTH succeed, and two pending bookings for Monday 2026-10-12 09:00 end up
in the collection — the residual race the double-check pattern does not
eliminate. -/
theorem race_bothSucceed_counterexample :
    resSuccess (procResult
      (runTwo [true, false, true, false, true, false] raceA raceB []).1) =
      true ∧
    resSuccess (procResult
      (runTwo [true, false, true, false, true, false] raceA raceB []).2.1) =
      true ∧
    ((runTwo [true, false, true, false, true, false] raceA raceB
      []).2.2.filter (conflictPred "2026-10-12" "09:00")).length = 2 := by
  decide

/-- Claim C7 (amended): for two concurrent `createBooking` calls for the
same (tenant, date, timeSlot), over every complete interleaving of their
availability-recheck / existence-check / insert steps, both calls
terminate with a result, and at most one succeeds — the other finishing
with a typed conflict failure — EXCEPT in the interleavings where both
existence checks run before both inserts: exactly there both calls
succeed and two pending bookings for the same slot are created. -/
theorem race_atMostOne_unless_residual (a b c d e f : Bool) :
    [a, b, c, d, e, f].count true = 3 →
    (let sched := [a, b, c, d, e, f]
     let out := runTwo sched raceA raceB []
     ((procResult out.1).isSome ∧ (procResult out.2.1).isSome) ∧
     ((resSuccess (procResult out.1) && resSuccess (procResult out.2.1)) =
       bothChecksBeforeInserts sched) ∧
     (bothChecksBeforeInserts sched = true →
       (out.2.2.filter (conflictPred "2026-10-12" "09:00")).length = 2) ∧
     (bothChecksBeforeInserts sched = false →
       ((resSuccess (procResult out.1) !=
         resSuccess (procResult out.2.1)) = true) ∧
       ((if resSuccess (procResult out.1) then
           resError (procResult out.2.1)
         else resError (procResult out.1)) = true))) := by
  revert a b c d e f
  decide

/-- Witness for C7 (amended), at the sequential schedule (all of call A,
then all of call B): both calls terminate, they do not both succeed, and
the loser reports a typed error. -/
theorem race_atMostOne_unless_residual_witness :
    ((procResult (runTwo [true, true, true, false, false, false] raceA raceB
        []).1).isSome ∧
      (procResult (runTwo [true, true, true, false, false, false] raceA raceB
        []).2.1).isSome) ∧
    ((resSuccess (procResult (runTwo [true, true, true, false, false, false]
        raceA raceB []).1) &&
      resSuccess (procResult (runTwo [true, true, true, false, false, false]
        raceA raceB []).2.1)) =
      bothChecksBeforeInserts [true, true, true, false, false, false]) ∧
    (bothChecksBeforeInserts [true, true, true, false, false, false] = true →
      ((runTwo [true, true, true, false, false, false] raceA raceB
        []).2.2.filter (conflictPred "2026-10-12" "09:00")).length = 2) ∧
    (bothChecksBeforeInserts [true, true, true, false, false, false] =
        false →
      ((resSuccess (procResult (runTwo [true, true, true, false, false,
          false] raceA raceB []).1) !=
        resSuccess (procResult (runTwo [true, true, true, false, false,
          false] raceA raceB []).2.1)) = true) ∧
      ((if resSuccess (procResult (runTwo [true, true, true, false, false,
            false] raceA raceB []).1) then
          resError (procResult (runTwo [true, true, true, false, false,
            false] raceA raceB []).2.1)
        else resError (procResult (runTwo [true, true, true, false, false,
            false] raceA raceB []).1)) = true)) := by
  exact race_atMostOne_unless_residual true true true false false false
    (by decide)

theorem saveExchange_length (conv : Option Conversation) (u m : String)
    (cid : Option String) (ts : String) :
    (saveConversationExchange conv u m cid ts).messages.length =
      min ((convMessages conv).length + 2) 100 := by
  cases conv with
  | none =>
    simp [saveConversationExchange, convMessages, jsSliceNeg,
      MAX_MESSAGES_PER_CONVERSATION]
  | some c =>
    simp only [saveConversationExchange, convMessages,
      MAX_MESSAGES_PER_CONVERSATION, jsSliceNeg]
    split
    · next h =>
      simp only [if_neg (by decide : ¬(100 = 0))]
      simp only [List.length_drop, List.length_append] at h ⊢
      simp at h ⊢
      omega
    · next h =>
      simp only [List.length_append] at h ⊢
      simp at h ⊢
      omega

theorem saveExchange_messages_suffix (conv : Option Conversation)
    (u m : String) (cid : Option String) (ts : String) :
    (saveConversationExchange conv u m cid ts).messages <:+
      convMessages conv ++ [⟨"user", u, ts⟩, ⟨"model", m, ts⟩] := by
  cases conv with
  | none =>
    simp only [saveConversationExchange, convMessages,
      MAX_MESSAGES_PER_CONVERSATION, jsSliceNeg]
    split
    · simp only [if_neg (by decide : ¬(100 = 0))]
      exact List.drop_suffix _ _
    · exact List.suffix_refl _
  | some c =>
    simp only [saveConversationExchange, convMessages,
      MAX_MESSAGES_PER_CONVERSATION, jsSliceNeg]
    split
    · simp only [if_neg (by decide : ¬(100 = 0))]
      exact List.drop_suffix _ _
    · exact List.suffix_refl _

theorem saveExchange_messages_no_trim (conv : Option Conversation)
    (u m : String) (cid : Option String) (ts : String)
    (h : (convMessages conv).length + 2 ≤ 100) :
    (saveConversationExchange conv u m cid ts).messages =
      convMessages conv ++ [⟨"user", u, ts⟩, ⟨"model", m, ts⟩] := by
  cases conv with
  | none =>
    simp only [convMessages, List.length_nil] at h ⊢
    simp [saveConversationExchange, MAX_MESSAGES_PER_CONVERSATION]
  | some c =>
    simp only [convMessages] at h ⊢
    simp only [saveConversationExchange, MAX_MESSAGES_PER_CONVERSATION]
    rw [if_neg]
    simp only [List.length_append, List.length_cons, List.length_nil]
    omega

theorem applyExchanges_length (cid : Option String) :
    ∀ (xs : List (String × String × String)) (conv : Option Conversation),
      (convMessages conv).length ≤ 100 →
      (convMessages (applyExchanges cid xs conv)).length =
        min ((convMessages conv).length + 2 * xs.length) 100 := by
  intro xs
  induction xs with
  | nil =>
    intro conv h
    simp only [applyExchanges, List.foldl_nil, List.length_nil]
    omega
  | cons x rest ih =>
    intro conv h
    have hstep := saveExchange_length conv x.1 x.2.1 cid x.2.2
    have h2 : (convMessages (some (saveConversationExchange conv x.1 x.2.1
        cid x.2.2))).length ≤ 100 := by
      simp only [convMessages, hstep]
      omega
    have hrec := ih (some (saveConversationExchange conv x.1 x.2.1 cid
      x.2.2)) h2
    simp only [applyExchanges, List.foldl_cons] at hrec ⊢
    rw [hrec]
    simp only [convMessages, hstep, List.length_cons]
    omega

theorem applyExchanges_some (cid : Option String) :
    ∀ (xs : List (String × String × String)) (c : Conversation),
      ∃ c2, applyExchanges cid xs (some c) = some c2 := by
  intro xs
  induction xs with
  | nil => intro c; exact ⟨c, rfl⟩
  | cons x rest ih =>
    intro c
    simp only [applyExchanges, List.foldl_cons]
    exact ih (saveConversationExchange (some c) x.1 x.2.1 cid x.2.2)

theorem applyExchanges_messages (cid : Option String) :
    ∀ (xs : List (String × String × String)) (conv : Option Conversation),
      (convMessages conv).length + 2 * xs.length ≤ 100 →
      convMessages (applyExchanges cid xs conv) =
        convMessages conv ++
          xs.flatMap (fun x =>
            [⟨"user", x.1, x.2.2⟩, ⟨"model", x.2.1, x.2.2⟩]) := by
  intro xs
  induction xs with
  | nil =>
    intro conv h
    simp [applyExchanges]
  | cons x rest ih =>
    intro conv h
    simp only [List.length_cons] at h
    have hnt := saveExchange_messages_no_trim conv x.1 x.2.1 cid x.2.2
      (by omega)
    have h2 : (convMessages (some (saveConversationExchange conv x.1 x.2.1
        cid x.2.2))).length + 2 * rest.length ≤ 100 := by
      rw [show convMessages (some (saveConversationExchange conv x.1 x.2.1
        cid x.2.2)) = (saveConversationExchange conv x.1 x.2.1 cid
        x.2.2).messages from rfl, hnt]
      simp only [List.length_append, List.length_cons, List.length_nil]
      omega
    have hrec := ih (some (saveConversationExchange conv x.1 x.2.1 cid
      x.2.2)) h2
    simp only [applyExchanges, List.foldl_cons] at hrec ⊢
    rw [hrec]
    simp only [convMessages, hnt, List.flatMap_cons, List.append_assoc]

/-- Claim C5: over any sequence of `saveConversationExchange` calls on one
conversation, the stored embedded messages array never exceeds 100
entries; the write is always a suffix of the old array plus the new pair,
so trimming drops only the oldest entries from the front; the stored
`messageCount` equals the array length; and after `N` exchanges from an
empty conversation that length is exactly `min(2 * N, 100)`. -/
theorem conversationCap_invariant :
    (∀ (conv : Option Conversation) (u m : String) (cid : Option String)
        (ts : String),
      (saveConversationExchange conv u m cid ts).messages.length ≤ 100 ∧
      (saveConversationExchange conv u m cid ts).messageCount =
        (saveConversationExchange conv u m cid ts).messages.length ∧
      (saveConversationExchange conv u m cid ts).messages <:+
        convMessages conv ++ [⟨"user", u, ts⟩, ⟨"model", m, ts⟩]) ∧
    (∀ (cid : Option String) (xs : List (String × String × String)),
      (convMessages (applyExchanges cid xs none)).length =
        min (2 * xs.length) 100) := by
  constructor
  · intro conv u m cid ts
    refine ⟨?_, rfl, saveExchange_messages_suffix conv u m cid ts⟩
    have h := saveExchange_length conv u m cid ts
    omega
  · intro cid xs
    have h := applyExchanges_length cid xs none (by
      simp [convMessages])
    rw [show (convMessages (none : Option Conversation)).length = 0 from
      rfl] at h
    omega

/-- Claim C6: round-trip — starting from an empty conversation (empty
cache, no legacy collections), appending `N` exchanges with
`saveConversationExchange` where `2 * N <= 100` and then reading with
`getConversationHistory` with `limit = 2 * N` returns exactly the same
`2 * N` messages in original chronological order, each user message
immediately followed by its model reply. -/
theorem saveThenHistory_roundTrip (uid : String) (cid : Option String)
    (now : Nat) (xs : List (String × String × String))
    (h : 2 * xs.length ≤ 100) :
    (getConversationHistory [] now false (applyExchanges cid xs none) [] []
        uid (2 * xs.length) cid).history =
      xs.flatMap (fun x => [⟨"user", x.1⟩, ⟨"model", x.2.1⟩]) := by
  cases xs with
  | nil => rfl
  | cons x rest =>
    obtain ⟨c, hc⟩ : ∃ c2, applyExchanges cid (x :: rest) none = some c2 := by
      simp only [applyExchanges, List.foldl_cons]
      exact applyExchanges_some cid rest _
    have hmsg := applyExchanges_messages cid (x :: rest) none (by
      rw [show (convMessages (none : Option Conversation)).length = 0 from
        rfl]
      omega)
    rw [hc] at hmsg
    rw [show convMessages (some c) = c.messages from rfl,
      show convMessages (none : Option Conversation) = [] from rfl,
      List.nil_append] at hmsg
    have hlen : c.messages.length = 2 * (x :: rest).length := by
      have h2 := applyExchanges_length cid (x :: rest) none (by
        rw [show (convMessages (none : Option Conversation)).length = 0 from
          rfl]
        omega)
      rw [hc, show convMessages (some c) = c.messages from rfl,
        show (convMessages (none : Option Conversation)).length = 0 from
          rfl] at h2
      omega
    simp only [getConversationHistory, hc, getCached, cacheGet]
    have hne : ¬(2 * (x :: rest).length = 0) := by
      simp [List.length_cons]
    simp only [jsSliceNeg, if_neg hne, hlen, Nat.sub_self, List.drop_zero]
    rw [if_pos (by
      simp only [List.length_map, hlen, List.length_cons]
      omega)]
    simp only [hmsg, List.map_flatMap]
    rfl

/-- Witness for C6: one exchange appended and read back with limit 2. -/
theorem saveThenHistory_roundTrip_witness :
    (getConversationHistory [] 0 false
        (applyExchanges none [("hi", "hello", "t1")] none) [] [] "u"
        (2 * ([("hi", "hello", "t1")] :
          List (String × String × String)).length) none).history =
      ([("hi", "hello", "t1")] :
        List (String × String × String)).flatMap
        (fun x => [⟨"user", x.1⟩, ⟨"model", x.2.1⟩]) :=
  saveThenHistory_roundTrip "u" none 0 [("hi", "hello", "t1")] (by decide)

theorem stateMapGet_clear (l : List (String × BookingState)) (k : String) :
    stateMapGet (clearState l k) k = none := by
  induction l with
  | nil => rfl
  | cons kv rest ih =>
    simp only [clearState, List.filter_cons] at ih ⊢
    by_cases h : kv.1 == k
    · simp only [h, Bool.not_true, if_neg (by decide : ¬(false = true))]
      exact ih
    · simp only [h, Bool.not_false, if_pos rfl, stateMapGet]
      rw [if_neg (by simpa using h)]
      exact ih

/-- Counterexample to C8 as stated: `startBooking` with the non-null but
EMPTY reason `""` (and no name) starts at `AWAITING_REASON`, not at
`AWAITING_DATE` — the source tests JS truthiness of the reason, not
null-ness, and the empty string is falsy. -/
theorem startBooking_emptyReason_counterexample :
    (getState (startBooking [] "k" (some "") none 0) "k").step =
      "awaiting_reason" ∧
    ¬((getState (startBooking [] "k" (some "") none 0) "k").step =
      "awaiting_date") := by
  decide

/-- Claim C8 (amended): `startBooking(key, reason, null)` with a non-null,
NON-EMPTY reason and no name transitions directly to `AWAITING_DATE`;
`setDate`, `setTimeSlot`, `setName` in order then reach `AWAITING_CONFIRM`
with all four fields (reason, date, timeSlot, name) populated; and
`clearState(key)` followed by `getState(key)` returns the idle default
`{step: IDLE}`. -/
theorem bookingFlow_chain (m : List (String × BookingState))
    (phone r d sl nm : String) (t1 t2 t3 t4 : Nat) (hr : r ≠ "") :
    (getState (startBooking m phone (some r) none t1) phone).step =
      "awaiting_date" ∧
    (getState (setName (setTimeSlot (setDate (startBooking m phone (some r)
        none t1) phone d t2) phone sl t3) phone nm t4) phone).step =
      "awaiting_confirm" ∧
    (getState (setName (setTimeSlot (setDate (startBooking m phone (some r)
        none t1) phone d t2) phone sl t3) phone nm t4) phone).reason =
      some r ∧
    (getState (setName (setTimeSlot (setDate (startBooking m phone (some r)
        none t1) phone d t2) phone sl t3) phone nm t4) phone).date =
      some d ∧
    (getState (setName (setTimeSlot (setDate (startBooking m phone (some r)
        none t1) phone d t2) phone sl t3) phone nm t4) phone).timeSlot =
      some sl ∧
    (getState (setName (setTimeSlot (setDate (startBooking m phone (some r)
        none t1) phone d t2) phone sl t3) phone nm t4) phone).name =
      some nm ∧
    getState (clearState (setName (setTimeSlot (setDate (startBooking m
        phone (some r) none t1) phone d t2) phone sl t3) phone nm t4) phone)
      phone = idleState := by
  have htr : jsTruthy (some r) = true := by
    simp [jsTruthy, hr]
  have hget : ∀ (m2 : List (String × BookingState)) (n2 : Nat)
      (upd : BookingState → BookingState),
      getState (setState m2 phone upd n2) phone =
        { upd (getState m2 phone) with updatedAt := some n2 } := by
    intro m2 n2 upd
    simp [getState, setState, stateMapGet]
  refine ⟨?_, ?_, ?_, ?_, ?_, ?_, ?_⟩ <;>
    simp only [startBooking, setDate, setTimeSlot, setName, hget, htr,
      Bool.false_and, Bool.and_self, if_pos rfl] <;>
    try rfl
  simp only [getState, stateMapGet_clear, Option.getD_none]

/-- Witness for C8 (amended): the concrete flow with reason `"demo"`,
date `"2026-10-12"`, slot `"09:00"`, name `"Alice"`. -/
theorem bookingFlow_chain_witness :
    (getState (startBooking [] "k" (some "demo") none 0) "k").step =
      "awaiting_date" ∧
    (getState (setName (setTimeSlot (setDate (startBooking [] "k"
        (some "demo") none 0) "k" "2026-10-12" 1) "k" "09:00" 2) "k" "Alice"
        3) "k").step = "awaiting_confirm" ∧
    (getState (setName (setTimeSlot (setDate (startBooking [] "k"
        (some "demo") none 0) "k" "2026-10-12" 1) "k" "09:00" 2) "k" "Alice"
        3) "k").reason = some "demo" ∧
    (getState (setName (setTimeSlot (setDate (startBooking [] "k"
        (some "demo") none 0) "k" "2026-10-12" 1) "k" "09:00" 2) "k" "Alice"
        3) "k").date = some "2026-10-12" ∧
    (getState (setName (setTimeSlot (setDate (startBooking [] "k"
        (some "demo") none 0) "k" "2026-10-12" 1) "k" "09:00" 2) "k" "Alice"
        3) "k").timeSlot = some "09:00" ∧
    (getState (setName (setTimeSlot (setDate (startBooking [] "k"
        (some "demo") none 0) "k" "2026-10-12" 1) "k" "09:00" 2) "k" "Alice"
        3) "k").name = some "Alice" ∧
    getState (clearState (setName (setTimeSlot (setDate (startBooking []
        "k" (some "demo") none 0) "k" "2026-10-12" 1) "k" "09:00" 2) "k"
        "Alice" 3) "k") "k" = idleState :=
  bookingFlow_chain [] "k" "demo" "2026-10-12" "09:00" "Alice" 0 1 2 3
    (by decide)

/-- Counterexample to C9 as stated of the shared TTL cache of the firebase
service: after `getAISettings` caches an explicit `null` (no `ai_config`
document), a second call well within the 120 s TTL runs the fetcher AGAIN
(`fetcherRan = true`): `getCached` returns `null` both for a miss and for
a fresh cached `null` (last conjunct: its result on the populated cache
equals its result on the empty cache), so the caller refetches a validly
cached "no settings configured" outcome. -/
theorem cachedNull_refetch_counterexample :
    (getAISettings ([] : List (String × CacheEntry Nat)) 0 "u1" none).2.1 =
      true ∧
    cacheGet (getAISettings ([] : List (String × CacheEntry Nat)) 0 "u1"
        none).2.2 "aiSettings:u1" = some ⟨none, 0⟩ ∧
    (getAISettings (getAISettings ([] : List (String × CacheEntry Nat)) 0
        "u1" none).2.2 1000 "u1" none).2.1 = true ∧
    getCached (getAISettings ([] : List (String × CacheEntry Nat)) 0 "u1"
        none).2.2 1000 "aiSettings:u1" 120000 =
      getCached ([] : List (String × CacheEntry Nat)) 1000 "aiSettings:u1"
        120000 := by
  decide

/-- Claim C9 (amended): `getCachedSettings` in aiService.js distinguishes
a miss from a cached null — a fresh entry is returned as a hit carrying
its stored `data`, even when that data is `null`, without running the
fetcher; the shared `getCached` of the firebase service, by contrast,
returns `null` for a fresh entry whose stored data is `null`, exactly as
for a miss, so its caller `getAISettings` runs the fetcher again. -/
theorem ttlCache_null_handling (α : Type)
    (cache : List (String × CacheEntry α)) (now : Nat)
    (userId cacheKey : String) (e : CacheEntry α) (fetched : Option α)
    (h1 : cacheGet cache (userId ++ ":" ++ cacheKey) = some e)
    (h2 : now - e.timestamp < 60000)
    (cache2 : List (String × CacheEntry α)) (e2 : CacheEntry α) (now2 : Nat)
    (h3 : cacheGet cache2 ("aiSettings:" ++ userId) = some e2)
    (h4 : e2.data = none) :
    getCachedSettings cache now userId cacheKey fetched =
      (e.data, false, cache) ∧
    getCached cache2 now2 ("aiSettings:" ++ userId) 120000 = none ∧
    (getAISettings cache2 now2 userId fetched).2.1 = true := by
  refine ⟨?_, ?_, ?_⟩
  · simp [getCachedSettings, h1, h2]
  · simp only [getCached, h3, h4]
    split <;> rfl
  · simp only [getAISettings, getCached, h3, h4, ite_self]
    cases fetched <;> rfl

/-- Witness for C9 (amended): concrete caches each holding one fresh
entry with `data = null`. -/
theorem ttlCache_null_handling_witness :
    getCachedSettings [("u1:ai", (⟨none, 0⟩ : CacheEntry Nat))] 100 "u1"
        "ai" none = ((⟨none, 0⟩ : CacheEntry Nat).data, false,
        [("u1:ai", (⟨none, 0⟩ : CacheEntry Nat))]) ∧
    getCached [("aiSettings:u1", (⟨none, 0⟩ : CacheEntry Nat))] 100
        "aiSettings:u1" 120000 = none ∧
    (getAISettings [("aiSettings:u1", (⟨none, 0⟩ : CacheEntry Nat))] 100
        "u1" none).2.1 = true :=
  ttlCache_null_handling Nat [("u1:ai", ⟨none, 0⟩)] 100 "u1" "ai" ⟨none, 0⟩
    none (by decide) (by decide) [("aiSettings:u1", ⟨none, 0⟩)] ⟨none, 0⟩
    100 (by decide) rfl
